import Mathlib

/-!
Verification of the go-id3 ID3v2 tag library against its specification.

The Go source is shallowly embedded: Go byte slices and Go strings are
modelled as lists of naturals (each element a byte value), fallible or
panicking code returns Option (none standing for a runtime panic such as
an index out of range or an explicit panic call), and machine integers
are modelled as Nat/Int, which agrees with Go int on the non-negative
values arising here.
-/

namespace ID3

/-- GoStr models both Go byte slices and Go strings: a list of byte values. -/
abbrev GoStr := List Nat

/-- desynchsafeInt from id3.go: b0 shifted 21, b1 shifted 14, b2 shifted 7, b3. -/
def desynchsafeInt (b : GoStr) : Nat :=
  ((b.getD 0 0) <<< 21) ||| ((b.getD 1 0) <<< 14) ||| ((b.getD 2 0) <<< 7) ||| (b.getD 3 0)

/-- synchsafeInt from id3.go, with the masks exactly as written in the source:
0x7f, 0x3f80 shifted 1, 0x1fc000 shifted 2, 0xfe0000 shifted 3. -/
def synchsafeInt (i : Nat) : Nat :=
  (i &&& 0x7f) |||
    ((i &&& 0x3f80) <<< 1) |||
    ((i &&& 0x1fc000) <<< 2) |||
    ((i &&& 0xfe0000) <<< 3)

/-- intToBytes from id3.go: big-endian four bytes of a non-negative int. -/
def intToBytes (i : Nat) : GoStr :=
  [(i &&& 0xff000000) >>> 24, (i &&& 0xff0000) >>> 16, (i &&& 0xff00) >>> 8, i &&& 0xff]

/-- iso88591ToUTF8: bytes up to 128 pass through, bytes of at least 192 become
195 and the byte minus 64, remaining bytes become 194 and the byte. -/
def iso88591ToUTF8 : GoStr → GoStr
  | [] => []
  | b :: rest =>
    if b ≤ 128 then b :: iso88591ToUTF8 rest
    else if b ≥ 192 then 195 :: (b - 64) :: iso88591ToUTF8 rest
    else 194 :: b :: iso88591ToUTF8 rest

/-- utf8ToISO88591: bytes up to 128 pass through; a larger byte consumes the
following byte, adding 64 to it when the lead byte is 195. Reading past the
end of the input (a lead byte with no successor) is a panic, hence none.
The addition is reduced modulo 256 as Go byte arithmetic wraps. -/
def utf8ToISO88591 : GoStr → Option GoStr
  | [] => some []
  | b :: rest =>
    if b ≤ 128 then (utf8ToISO88591 rest).map (fun r => b :: r)
    else
      match rest with
      | [] => none
      | c :: rest2 =>
        let v := if b = 195 then (c + 64) % 256 else c
        (utf8ToISO88591 rest2).map (fun r => v :: r)

/-- utf16Collect models the code-unit loop of utf16ToUTF8: pairs of bytes are
combined into 16-bit units (big or little endian). An odd trailing byte makes
the loop body read past the end of the input, a panic, hence none. -/
def utf16Collect (bigEndian : Bool) : GoStr → Option (List Nat)
  | [] => some []
  | [_] => none
  | a :: b :: rest =>
    (utf16Collect bigEndian rest).map
      (fun us => (if bigEndian then (a <<< 8) ||| b else a ||| (b <<< 8)) :: us)

/-- utf16DecodeUnits models Go unicode/utf16.Decode: surrogate pairs are
combined, lone surrogates become the replacement character 0xFFFD. -/
def utf16DecodeUnits : List Nat → List Nat
  | [] => []
  | [r] => if r < 0xD800 ∨ 0xE000 ≤ r then [r] else [0xFFFD]
  | r :: r2 :: rest =>
    if r < 0xD800 ∨ 0xE000 ≤ r then r :: utf16DecodeUnits (r2 :: rest)
    else if r < 0xDC00 then
      if 0xDC00 ≤ r2 ∧ r2 < 0xE000 then
        ((((r - 0xD800) <<< 10) ||| (r2 - 0xDC00)) + 0x10000) :: utf16DecodeUnits rest
      else 0xFFFD :: utf16DecodeUnits (r2 :: rest)
    else 0xFFFD :: utf16DecodeUnits (r2 :: rest)

/-- utf8EncodeRune models the UTF-8 encoding of one rune as performed by a Go
string conversion; surrogates and out-of-range runes become 0xFFFD. -/
def utf8EncodeRune (r : Nat) : GoStr :=
  if r < 0x80 then [r]
  else if r < 0x800 then [0xC0 ||| (r >>> 6), 0x80 ||| (r &&& 0x3F)]
  else if (0xD800 ≤ r ∧ r < 0xE000) ∨ 0x10FFFF < r then [0xEF, 0xBF, 0xBD]
  else if r < 0x10000 then
    [0xE0 ||| (r >>> 12), 0x80 ||| ((r >>> 6) &&& 0x3F), 0x80 ||| (r &&& 0x3F)]
  else
    [0xF0 ||| (r >>> 18), 0x80 ||| ((r >>> 12) &&& 0x3F),
      0x80 ||| ((r >>> 6) &&& 0x3F), 0x80 ||| (r &&& 0x3F)]

/-- utf8EncodeRunes models the Go conversion from a rune slice to a string. -/
def utf8EncodeRunes (rs : List Nat) : GoStr :=
  (rs.map utf8EncodeRune).flatten

/-- utf16ToUTF8 from the encoding module. The function first inspects input
index 0 (a panic when the input is empty, hence none); index 1 is inspected
only when the first byte is 0xFF or 0xFE, mirroring the short-circuit of the
Go conditions. A recognized BOM is stripped and selects the byte order,
otherwise big endian is assumed. The remaining bytes run through the
code-unit loop, utf16 decoding and UTF-8 re-encoding. -/
def utf16ToUTF8 (input : GoStr) : Option GoStr :=
  match input with
  | [] => none
  | b0 :: rest0 =>
    if b0 = 0xFF then
      match rest0 with
      | [] => none
      | b1 :: rest1 =>
        if b1 = 0xFE then
          (utf16Collect false rest1).map (fun us => utf8EncodeRunes (utf16DecodeUnits us))
        else
          (utf16Collect true (b0 :: rest0)).map
            (fun us => utf8EncodeRunes (utf16DecodeUnits us))
    else if b0 = 0xFE then
      match rest0 with
      | [] => none
      | b1 :: rest1 =>
        if b1 = 0xFF then
          (utf16Collect true rest1).map (fun us => utf8EncodeRunes (utf16DecodeUnits us))
        else
          (utf16Collect true (b0 :: rest0)).map
            (fun us => utf8EncodeRunes (utf16DecodeUnits us))
    else
      (utf16Collect true (b0 :: rest0)).map
        (fun us => utf8EncodeRunes (utf16DecodeUnits us))

/-- Encoding byte values as declared in the source: 0 ISO-8859-1, 1 UTF-16
with BOM, 2 UTF-16 big endian, 3 UTF-8. -/
def encISO88591 : Nat := 0

def encUTF16BOM : Nat := 1

def encUTF16BE : Nat := 2

def encUTF8 : Nat := 3

/-- stripTrailingNul models the final step of Encoding.toUTF8: one trailing
zero byte, when present, is dropped. -/
def stripTrailingNul (ret : GoStr) : GoStr :=
  if ret ≠ [] ∧ ret.getLast? = some 0 then ret.dropLast else ret

/-- toUTF8 models Encoding.toUTF8: dispatch on the encoding byte, with the
default branch an explicit panic (none); the utf16 path can also panic. -/
def toUTF8 (e : Nat) (b : GoStr) : Option GoStr :=
  (if e = encUTF16BOM ∨ e = encUTF16BE then utf16ToUTF8 b
   else if e = encUTF8 then some b
   else if e = encISO88591 then some (iso88591ToUTF8 b)
   else none).map stripTrailingNul

/-- splitAtNul finds the first zero byte and returns the parts before and
after it; none when no zero byte occurs. Helper for the bytes.SplitN model. -/
def splitAtNul : GoStr → Option (GoStr × GoStr)
  | [] => none
  | 0 :: rest => some ([], rest)
  | b :: rest => (splitAtNul rest).map (fun pq => (b :: pq.1, pq.2))

/-- bytesSplitNulN models Go bytes.SplitN with the single-byte separator 0:
at most n subslices, the last one holding the unsplit remainder. -/
def bytesSplitNulN : Nat → GoStr → List GoStr
  | 0, _ => []
  | 1, data => [data]
  | n + 2, data =>
    match splitAtNul data with
    | none => [data]
    | some (pre, post) => pre :: bytesSplitNulN (n + 1) post

/-- splitNullNLoop models the utf16 scan loop of splitNullN. The index i
advances by two. The variable prev of the source is initialized to 0 and
never assigned again, so every appended slice starts at offset 0; the model
reproduces that with data.take i. The first list argument carries the bytes
from index i on, so the walk is structural. The byte at i+1 is read only
when the byte at i is zero (Go short-circuit); when it lies past the end
that read is a panic, hence none; a sole non-zero trailing byte simply ends
the loop. A break leaves the loop once n-1 matches are collected. -/
def splitNullNLoop (data : GoStr) (n : Nat) : GoStr → Nat → List GoStr →
    Option (List GoStr)
  | [], _, found => some found
  | [b0], _, found => if b0 = 0 then none else some found
  | b0 :: b1 :: rem, i, found =>
    if b0 = 0 ∧ b1 = 0 then
      let ms := found ++ [data.take i]
      if ms.length = n - 1 then some ms
      else splitNullNLoop data n rem (i + 2) ms
    else splitNullNLoop data n rem (i + 2) found

/-- splitNullN from id3.go: single-zero SplitN for UTF-8 and ISO-8859-1,
otherwise the aligned double-zero scan; after the loop the slice data of
the form data.drop prev, with prev still 0, is appended whenever
0 is less than the length minus one. -/
def splitNullN (data : GoStr) (encoding : Nat) (n : Nat) : Option (List GoStr) :=
  if encoding = encUTF8 ∨ encoding = encISO88591 then some (bytesSplitNulN n data)
  else
    (splitNullNLoop data n data 0 []).map
      (fun ms => if 1 < data.length then ms ++ [data] else ms)

/-! Frame type identifiers used by the claims, written as ASCII byte lists. -/

/-- ID3 magic bytes. -/
def id3Magic : GoStr := [73, 68, 51]

/-- Frame id TYER. -/
def idTYER : GoStr := [84, 89, 69, 82]

/-- Frame id TDAT. -/
def idTDAT : GoStr := [84, 68, 65, 84]

/-- Frame id TIME. -/
def idTIME : GoStr := [84, 73, 77, 69]

/-- Frame id TDRC. -/
def idTDRC : GoStr := [84, 68, 82, 67]

/-- Frame id TDOR. -/
def idTDOR : GoStr := [84, 68, 79, 82]

/-- Frame id XDOR. -/
def idXDOR : GoStr := [88, 68, 79, 82]

/-- Frame id TORY. -/
def idTORY : GoStr := [84, 79, 82, 89]

/-- Frame id TLAN. -/
def idTLAN : GoStr := [84, 76, 65, 78]

/-- Frame id TCON. -/
def idTCON : GoStr := [84, 67, 79, 78]

/-- Frame id TPE1. -/
def idTPE1 : GoStr := [84, 80, 69, 49]

/-- Frame id TOPE. -/
def idTOPE : GoStr := [84, 79, 80, 69]

/-- Frame id TCOM. -/
def idTCOM : GoStr := [84, 67, 79, 77]

/-- Frame id TEXT. -/
def idTEXT : GoStr := [84, 69, 88, 84]

/-- Frame id TOLY. -/
def idTOLY : GoStr := [84, 79, 76, 89]

/-- Frame id TRDA. -/
def idTRDA : GoStr := [84, 82, 68, 65]

/-- Frame id TDTG. -/
def idTDTG : GoStr := [84, 68, 84, 71]

/-- Frame id TXXX. -/
def idTXXX : GoStr := [84, 88, 88, 88]

/-- Frame id WXXX. -/
def idWXXX : GoStr := [87, 88, 88, 88]

/-- Frame id UFID. -/
def idUFID : GoStr := [85, 70, 73, 68]

/-- Frame id COMM. -/
def idCOMM : GoStr := [67, 79, 77, 77]

/-- Frame id PRIV. -/
def idPRIV : GoStr := [80, 82, 73, 86]

/-- Frame id APIC. -/
def idAPIC : GoStr := [65, 80, 73, 67]

/-- Frame id MCDI. -/
def idMCDI : GoStr := [77, 67, 68, 73]

/-- Frame id USLT. -/
def idUSLT : GoStr := [85, 83, 76, 84]

/-- Frame id TALB. -/
def idTALB : GoStr := [84, 65, 76, 66]

/-- Frame id TIT2. -/
def idTIT2 : GoStr := [84, 73, 84, 50]

/-- FrameHeader from frames.go: the 4-byte id and the 16-bit flag word. -/
structure FrameHeader where
  id : GoStr
  flags : Nat
deriving Repr, DecidableEq

/-- Frame: the closed union of frame variants defined across frames.go and
the decoder, each owning its FrameHeader and typed fields. -/
inductive Frame where
  | textInformation (header : FrameHeader) (text : GoStr)
  | userTextInformation (header : FrameHeader) (description text : GoStr)
  | uniqueFileIdentifier (header : FrameHeader) (owner identifier : GoStr)
  | urlLink (header : FrameHeader) (url : GoStr)
  | userDefinedURLLink (header : FrameHeader) (description url : GoStr)
  | comment (header : FrameHeader) (language description text : GoStr)
  | privateFrame (header : FrameHeader) (owner data : GoStr)
  | picture (header : FrameHeader) (mimeType : GoStr) (pictureType : Nat)
      (description data : GoStr)
  | musicCDIdentifier (header : FrameHeader) (toc : GoStr)
  | unsynchronisedLyrics (header : FrameHeader) (language description lyrics : GoStr)
  | unsupported (header : FrameHeader) (data : GoStr)
deriving Repr, DecidableEq

/-- value models the Value method of each frame variant from frames.go. -/
def Frame.value : Frame → GoStr
  | .textInformation _ text => text
  | .userTextInformation _ _ text => text
  | .uniqueFileIdentifier _ _ identifier => identifier
  | .urlLink _ url => url
  | .userDefinedURLLink _ _ url => url
  | .comment _ _ _ text => text
  | .privateFrame _ _ data => data
  | .picture _ _ _ _ data => data
  | .musicCDIdentifier _ toc => toc
  | .unsynchronisedLyrics _ _ _ lyrics => lyrics
  | .unsupported _ _ => []

/-- digitsAcc accumulates decimal digits; none on the first non-digit. -/
def digitsAcc : GoStr → Nat → Option Nat
  | [], acc => some acc
  | c :: rest, acc =>
    if 48 ≤ c ∧ c ≤ 57 then digitsAcc rest (acc * 10 + (c - 48)) else none

/-- atoi models Go strconv.Atoi as used by the callers here, which discard
the error: a syntactically invalid string yields the zero value. -/
def atoi (s : GoStr) : Int :=
  match s with
  | [] => 0
  | 45 :: rest =>
    if rest = [] then 0
    else match digitsAcc rest 0 with
      | some v => -(v : Int)
      | none => 0
  | 43 :: rest =>
    if rest = [] then 0
    else match digitsAcc rest 0 with
      | some v => (v : Int)
      | none => 0
  | _ =>
    match digitsAcc s 0 with
    | some v => (v : Int)
    | none => 0

/-- GoTime models a Go time.Time restricted to its calendar fields. The
constructor time.Date is modelled only for arguments inside calendar range,
for which Go performs no normalization; that covers every use below. -/
structure GoTime where
  year : Int
  month : Int
  day : Int
  hour : Int
  minute : Int
  second : Int
deriving Repr, DecidableEq

/-- timeDate models time.Date(year, month, day, hour, minute, second, 0, UTC)
for in-range arguments. -/
def timeDate (year month day hour minute second : Int) : GoTime :=
  ⟨year, month, day, hour, minute, second⟩

/-- pad2 renders a number as two ASCII digits. -/
def pad2 (n : Nat) : GoStr := [48 + n / 10 % 10, 48 + n % 10]

/-- pad4 renders a number as four ASCII digits. -/
def pad4 (n : Nat) : GoStr :=
  [48 + n / 1000 % 10, 48 + n / 100 % 10, 48 + n / 10 % 10, 48 + n % 10]

/-- formatTime models Format with the layout of the TimeFormat constant,
2006-01-02T15:04:05, for times with in-range non-negative fields. -/
def formatTime (t : GoTime) : GoStr :=
  pad4 t.year.toNat ++ [45] ++ pad2 t.month.toNat ++ [45] ++ pad2 t.day.toNat ++
    [84] ++ pad2 t.hour.toNat ++ [58] ++ pad2 t.minute.toNat ++ [58] ++ pad2 t.second.toNat

/-- FramesMap models the Go map from frame type to frame list as an
association list; parsing and the setters keep its keys unique, and the
claims settled here do not depend on iteration order. -/
abbrev FramesMap := List (GoStr × List Frame)

/-- framesLookup models a Go map read: the value under a key, when present. -/
def framesLookup (fm : FramesMap) (k : GoStr) : Option (List Frame) :=
  (fm.find? (fun e => decide (e.1 = k))).map (fun e => e.2)

/-- framesRemove models delete(t.Frames, name), the body of RemoveFrames. -/
def framesRemove (fm : FramesMap) (k : GoStr) : FramesMap :=
  fm.filter (fun e => !(decide (e.1 = k)))

/-- hasFrame models Tag.HasFrame: key presence in the frames map. -/
def hasFrame (fm : FramesMap) (k : GoStr) : Bool :=
  (framesLookup fm k).isSome

/-- frameNameToUserFrame from id3.go: names of at least six bytes starting
with TXXX select the user-frame path, returning the part after byte five. -/
def frameNameToUserFrame (name : GoStr) : Option GoStr :=
  if name.length < 6 then none
  else if name.take 4 ≠ idTXXX then none
  else some (name.drop 5)

/-- findUserText models the loop of getUserTextFrame: each frame of the TXXX
list is type-asserted to a user text frame (a panic, hence none, for any
other variant) and its description compared; no match yields the empty
string. -/
def findUserText : List Frame → GoStr → Option GoStr
  | [], _ => some []
  | .userTextInformation _ d t :: rest, name =>
    if d = name then some t else findUserText rest name
  | _ :: _, _ => none

/-- getUserTextFrame from id3.go. -/
def getUserTextFrame (fm : FramesMap) (name : GoStr) : Option GoStr :=
  match framesLookup fm idTXXX with
  | none => some []
  | some frames => findUserText frames name

/-- getTextFrame models Tag.GetTextFrame: the user-frame path for TXXX:...
names, otherwise the value of the first frame under the name, with the empty
string for an absent or empty entry. -/
def getTextFrame (fm : FramesMap) (name : GoStr) : Option GoStr :=
  match frameNameToUserFrame name with
  | some un => getUserTextFrame fm un
  | none =>
    match framesLookup fm name with
    | none => some []
    | some [] => some []
    | some (f :: _) => some f.value

/-- getTextFrameNumber models Tag.GetTextFrameNumber; atoi already yields 0
for the empty string, matching the explicit empty-string check. -/
def getTextFrameNumber (fm : FramesMap) (name : GoStr) : Option Int :=
  (getTextFrame fm name).map atoi

/-- framesSet models the non-user branch of SetTextFrame acting on the map:
a missing key is created with a one-element list, an existing entry has its
first element overwritten in place; overwriting the first element of an
empty stored slice is an index panic, hence none. -/
def framesSet (fm : FramesMap) (k : GoStr) (f : Frame) : Option FramesMap :=
  match framesLookup fm k with
  | none => some (fm ++ [(k, [f])])
  | some [] => none
  | some (_ :: rest) =>
    some (fm.map (fun e => if e.1 = k then (k, f :: rest) else e))

/-- findUserIndex walks a TXXX frame list looking for a description match,
type-asserting every visited frame (outer none models that panic); the inner
option is the match index. -/
def findUserIndex : List Frame → GoStr → Option (Option Nat)
  | [], _ => some none
  | .userTextInformation _ d _ :: rest, name =>
    if d = name then some (some 0)
    else (findUserIndex rest name).map (fun o => o.map (fun i => i + 1))
  | _ :: _, _ => none

/-- setUserTextFrame from id3.go. When the TXXX entry exists but no
description matches, the ok flag of the source is still true from the map
lookup and the loop index has stopped at the last element, so the source
overwrites the last frame; an existing empty entry then panics on index 0. -/
def setUserTextFrame (fm : FramesMap) (name value : GoStr) : Option FramesMap :=
  let nf : Frame := .userTextInformation ⟨idTXXX, 0⟩ name value
  match framesLookup fm idTXXX with
  | none => some (fm ++ [(idTXXX, [nf])])
  | some frames =>
    match findUserIndex frames name with
    | none => none
    | some (some i) =>
      some (fm.map (fun e => if e.1 = idTXXX then (idTXXX, frames.set i nf) else e))
    | some none =>
      match frames with
      | [] => none
      | _ :: _ =>
        some (fm.map (fun e =>
          if e.1 = idTXXX then (idTXXX, frames.set (frames.length - 1) nf) else e))

/-- setTextFrame models Tag.SetTextFrame on the frames map. -/
def setTextFrame (fm : FramesMap) (name value : GoStr) : Option FramesMap :=
  match frameNameToUserFrame name with
  | some un => setUserTextFrame fm un value
  | none => framesSet fm name (.textInformation ⟨name, 0⟩ value)

/-- setTextFrameTime models Tag.SetTextFrameTime: the formatted time stored
as a text frame. -/
def setTextFrameTime (fm : FramesMap) (name : GoStr) (t : GoTime) : Option FramesMap :=
  setTextFrame fm name (formatTime t)

/-- joinNul models strings.Join with the zero-byte separator, the body of
SetTextFrameSlice. -/
def joinNul (parts : List GoStr) : GoStr :=
  match parts with
  | [] => []
  | p :: rest => rest.foldl (fun acc q => acc ++ [0] ++ q) p

/-- splitSlash models strings.Split with separator 47, the slash; an empty
input yields one empty field, as in Go. -/
def splitSlash : GoStr → List GoStr
  | [] => [[]]
  | 47 :: rest => [] :: splitSlash rest
  | b :: rest =>
    match splitSlash rest with
    | p :: ps => (b :: p) :: ps
    | [] => [[b]]

/-- TagHeader from id3.go: version word, header flags, body size. -/
structure TagHeader where
  version : Nat
  flags : Nat
  size : Nat
deriving Repr, DecidableEq

/-- Tag from id3.go: the header and the frames map. -/
structure Tag where
  header : TagHeader
  frames : FramesMap
deriving Repr, DecidableEq

/-- upgradeDateFrames models the first section of Tag.upgrade: when any of
TYER, TDAT, TIME is present, a TDRC frame is synthesized and the three
frames removed. The source parses day and month from the TDAT string and
then parses hour and minute from that same TDAT string again; the TIME
string is fetched and defaulted but never read afterwards. The model keeps
that behavior exactly. -/
def upgradeDateFrames (fm : FramesMap) : Option FramesMap :=
  if hasFrame fm idTYER ∨ hasFrame fm idTDAT ∨ hasFrame fm idTIME then do
    let year ← getTextFrameNumber fm idTYER
    let date0 ← getTextFrame fm idTDAT
    let tim0 ← getTextFrame fm idTIME
    let date := if date0.length ≠ 4 then [48, 49, 48, 49] else date0
    let tim := if tim0.length ≠ 4 then [48, 48, 48, 48] else tim0
    let day := atoi (date.take 2)
    let month := atoi (date.drop 2)
    let hour := atoi (date.take 2)
    let minute := atoi (date.drop 2)
    let _ := tim
    let fm2 ← setTextFrameTime fm idTDRC (timeDate year month day hour minute 0)
    some (framesRemove (framesRemove (framesRemove fm2 idTYER) idTDAT) idTIME)
  else some fm

/-- upgradeReleaseFrames models the second section of Tag.upgrade: with no
TDOR present, an XDOR frame hits the explicit not-implemented panic, hence
none, and a TORY frame is converted into TDOR. -/
def upgradeReleaseFrames (fm : FramesMap) : Option FramesMap :=
  if !hasFrame fm idTDOR then
    if hasFrame fm idXDOR then none
    else if hasFrame fm idTORY then do
      let year ← getTextFrameNumber fm idTORY
      setTextFrameTime fm idTDOR (timeDate year 0 0 0 0 0)
    else some fm
  else some fm

/-- upgradeSlashes models the final loop of Tag.upgrade: for each of the
seven multi-value frame names present in the map, the slash-separated value
is split and re-joined with zero bytes. The keys of the map do not change
during the loop and each key is handled independently, so the association
list order stands in for the Go map iteration order. -/
def upgradeSlashes (fm : FramesMap) : Option FramesMap :=
  (fm.map (fun e => e.1)).foldlM
    (fun acc name =>
      if name = idTLAN ∨ name = idTCON ∨ name = idTPE1 ∨ name = idTOPE ∨
          name = idTCOM ∨ name = idTEXT ∨ name = idTOLY then do
        let s ← getTextFrame acc name
        setTextFrame acc name (joinNul (splitSlash s))
      else some acc)
    fm

/-- upgrade models Tag.upgrade from id3.go; none is a panic along the way. -/
def upgrade (t : Tag) : Option Tag := do
  let fm1 ← upgradeDateFrames t.frames
  let fm2 ← upgradeReleaseFrames fm1
  let fm3 ← upgradeSlashes fm2
  some ⟨t.header, fm3⟩

/-! Decoder model, following decoder.go. Stream reads are modelled on the
byte list that the tag-size bound of the limited reader allows. -/

/-- ParseErr enumerates the error values surfaced while parsing: the header
errors, the malformed frame header error, the unimplemented-feature error
and the two read errors of the io package. -/
inductive ParseErr where
  | notATagHeader
  | unsupportedVersion
  | unimplementedFeature
  | notAFrameHeader
  | errUnexpectedEOF
  | errEOF
deriving Repr, DecidableEq

/-- ReadRes is the outcome of one full read of a fixed number of bytes, as
binary.Read performs it on the limited reader: eofStart when no byte is
available although at least one is requested, short when some but not all
requested bytes are available. -/
inductive ReadRes where
  | ok (bytes rest : GoStr)
  | eofStart
  | short
deriving Repr, DecidableEq

/-- readFull models binary.Read of a k-byte object. -/
def readFull (k : Nat) (s : GoStr) : ReadRes :=
  if k = 0 then .ok [] s
  else if s.length = 0 then .eofStart
  else if s.length < k then .short
  else .ok (s.take k) (s.drop k)

/-- readBuf models one plain Read call into a buffer of length k on the
limited reader: none is the io.EOF returned when the limit is exhausted;
otherwise the buffer holds the available bytes, zero-filled to k as make
initialized it, and the read consumes at most k bytes. -/
def readBuf (k : Nat) (s : GoStr) : Option (GoStr × GoStr) :=
  if s.length = 0 then none
  else some (s.take k ++ List.replicate (k - min k s.length) 0, s.drop k)

/-- FrameStep is the outcome of one ParseFrame call: a frame plus the
remaining bytes, end of stream (padding or an io.EOF from a read, which the
Parse loop treats as normal termination), an error, or a panic. -/
inductive FrameStep where
  | next (f : Frame) (rest : GoStr)
  | eof
  | fail (e : ParseErr)
  | panicked
deriving Repr, DecidableEq

/-- validIdByte: a frame id byte must be an ASCII digit or capital letter. -/
def validIdByte (b : Nat) : Bool :=
  decide ((48 ≤ b ∧ b ≤ 57) ∨ (65 ≤ b ∧ b ≤ 90))

/-- readTXXXFrame from decoder.go. -/
def readTXXXFrame (header : FrameHeader) (frameSize : Nat) (s : GoStr) : FrameStep :=
  if frameSize = 0 then .panicked
  else
    match readFull 1 s with
    | .eofStart => .eof
    | .short => .fail .errUnexpectedEOF
    | .ok encB s1 =>
      let encoding := encB.getD 0 0
      match readFull (frameSize - 1) s1 with
      | .eofStart => .eof
      | .short => .fail .errUnexpectedEOF
      | .ok rest s2 =>
        match splitNullN rest encoding 2 with
        | none => .panicked
        | some (p0 :: p1 :: _) =>
          match toUTF8 encoding p0, toUTF8 encoding p1 with
          | some d, some t => .next (.userTextInformation header d t) s2
          | _, _ => .panicked
        | some _ => .panicked

/-- readWXXXFrame from decoder.go. -/
def readWXXXFrame (header : FrameHeader) (frameSize : Nat) (s : GoStr) : FrameStep :=
  if frameSize = 0 then .panicked
  else
    match readFull 1 s with
    | .eofStart => .eof
    | .short => .fail .errUnexpectedEOF
    | .ok encB s1 =>
      let encoding := encB.getD 0 0
      match readFull (frameSize - 1) s1 with
      | .eofStart => .eof
      | .short => .fail .errUnexpectedEOF
      | .ok rest s2 =>
        match splitNullN rest encoding 2 with
        | none => .panicked
        | some (p0 :: p1 :: _) =>
          match toUTF8 encoding p0 with
          | some d => .next (.userDefinedURLLink header d (iso88591ToUTF8 p1)) s2
          | none => .panicked
        | some _ => .panicked

/-- readUFIDFrame from decoder.go; the owner runs through the ISO-8859-1
decode of the Encoding method, the identifier is the raw remainder. -/
def readUFIDFrame (header : FrameHeader) (frameSize : Nat) (s : GoStr) : FrameStep :=
  match readFull frameSize s with
  | .eofStart => .eof
  | .short => .fail .errUnexpectedEOF
  | .ok rest s1 =>
    match bytesSplitNulN 2 rest with
    | p0 :: p1 :: _ =>
      match toUTF8 encISO88591 p0 with
      | some owner => .next (.uniqueFileIdentifier header owner p1) s1
      | none => .panicked
    | _ => .panicked

/-- readCOMMFrame from decoder.go. -/
def readCOMMFrame (header : FrameHeader) (frameSize : Nat) (s : GoStr) : FrameStep :=
  if frameSize < 4 then .panicked
  else
    match readFull 1 s with
    | .eofStart => .eof
    | .short => .fail .errUnexpectedEOF
    | .ok encB s1 =>
      let encoding := encB.getD 0 0
      match readFull 3 s1 with
      | .eofStart => .eof
      | .short => .fail .errUnexpectedEOF
      | .ok language s2 =>
        match readFull (frameSize - 4) s2 with
        | .eofStart => .eof
        | .short => .fail .errUnexpectedEOF
        | .ok rest s3 =>
          match splitNullN rest encoding 2 with
          | none => .panicked
          | some (p0 :: p1 :: _) =>
            match toUTF8 encoding p0, toUTF8 encoding p1 with
            | some d, some t => .next (.comment header language d t) s3
            | _, _ => .panicked
          | some _ => .panicked

/-- readPRIVFrame from decoder.go: one plain Read into the buffer, split at
the first zero byte; a missing zero byte makes the access to the second part
a panic. -/
def readPRIVFrame (header : FrameHeader) (frameSize : Nat) (s : GoStr) : FrameStep :=
  match readBuf frameSize s with
  | none => .eof
  | some (data, s1) =>
    match bytesSplitNulN 2 data with
    | p0 :: p1 :: _ => .next (.privateFrame header p0 p1) s1
    | _ => .panicked

/-- readAPICFrame from decoder.go: the rest after the encoding byte is split
at the first zero byte into the MIME type and the remainder, whose first
byte is the picture type; the remainder after it splits on the declared
encoding into description and picture data. -/
def readAPICFrame (header : FrameHeader) (frameSize : Nat) (s : GoStr) : FrameStep :=
  if frameSize = 0 then .panicked
  else
    match readFull 1 s with
    | .eofStart => .eof
    | .short => .fail .errUnexpectedEOF
    | .ok encB s1 =>
      let encoding := encB.getD 0 0
      match readFull (frameSize - 1) s1 with
      | .eofStart => .eof
      | .short => .fail .errUnexpectedEOF
      | .ok rest s2 =>
        match bytesSplitNulN 2 rest with
        | p0 :: p1 :: _ =>
          match p1 with
          | [] => .panicked
          | ptype :: p1rest =>
            match splitNullN p1rest encoding 2 with
            | none => .panicked
            | some (q0 :: q1 :: _) =>
              match toUTF8 encISO88591 p0, toUTF8 encoding q0 with
              | some mime, some desc => .next (.picture header mime ptype desc q1) s2
              | _, _ => .panicked
            | some _ => .panicked
        | _ => .panicked

/-- readMCDIFrame from decoder.go: one plain Read into the table-of-contents
buffer. -/
def readMCDIFrame (header : FrameHeader) (frameSize : Nat) (s : GoStr) : FrameStep :=
  match readBuf frameSize s with
  | none => .eof
  | some (toc, s1) => .next (.musicCDIdentifier header toc) s1

/-- readUSLTFrame from decoder.go, laid out like a comment frame. -/
def readUSLTFrame (header : FrameHeader) (frameSize : Nat) (s : GoStr) : FrameStep :=
  if frameSize < 4 then .panicked
  else
    match readFull 1 s with
    | .eofStart => .eof
    | .short => .fail .errUnexpectedEOF
    | .ok encB s1 =>
      let encoding := encB.getD 0 0
      match readFull 3 s1 with
      | .eofStart => .eof
      | .short => .fail .errUnexpectedEOF
      | .ok language s2 =>
        match readFull (frameSize - 4) s2 with
        | .eofStart => .eof
        | .short => .fail .errUnexpectedEOF
        | .ok rest s3 =>
          match splitNullN rest encoding 2 with
          | none => .panicked
          | some (p0 :: p1 :: _) =>
            match toUTF8 encoding p0, toUTF8 encoding p1 with
            | some d, some t => .next (.unsynchronisedLyrics header language d t) s3
            | _, _ => .panicked
          | some _ => .panicked

/-- parseFrame models Decoder.ParseFrame on the bytes remaining inside the
tag bound: end of stream at zero remaining bytes or at an all-zero id
(padding, discarding the remainder), the id validation, the rejection of
compressed, encrypted and grouped frames, the generic text and url branches,
the reader table and the unsupported-frame fallback. -/
def parseFrame (s : GoStr) : FrameStep :=
  if s.length = 0 then .eof
  else
    match readFull 10 s with
    | .eofStart => .eof
    | .short => .fail .errUnexpectedEOF
    | .ok hb rest =>
      let id := hb.take 4
      if id = [0, 0, 0, 0] then .eof
      else if ¬ (id.all validIdByte) then .fail .notAFrameHeader
      else
        let header : FrameHeader := ⟨id, ((hb.getD 8 0) <<< 8) ||| hb.getD 9 0⟩
        let frameSize := desynchsafeInt ((hb.drop 4).take 4)
        if header.flags &&& 128 ≠ 0 then .fail .unimplementedFeature
        else if header.flags &&& 64 ≠ 0 then .fail .unimplementedFeature
        else if header.flags &&& 32 ≠ 0 then .fail .unimplementedFeature
        else if id.getD 0 0 = 84 ∧ id ≠ idTXXX then
          if frameSize = 0 then .panicked
          else
            match readFull 1 rest with
            | .eofStart => .eof
            | .short => .fail .errUnexpectedEOF
            | .ok encB s1 =>
              let encoding := encB.getD 0 0
              match readFull (frameSize - 1) s1 with
              | .eofStart => .eof
              | .short => .fail .errUnexpectedEOF
              | .ok information s2 =>
                match toUTF8 encoding information with
                | some text => .next (.textInformation header text) s2
                | none => .panicked
        else if id.getD 0 0 = 87 ∧ id ≠ idWXXX then
          match readBuf frameSize rest with
          | none => .eof
          | some (url, s1) =>
            match toUTF8 encISO88591 url with
            | some u => .next (.urlLink header u) s1
            | none => .panicked
        else if id = idTXXX then readTXXXFrame header frameSize rest
        else if id = idWXXX then readWXXXFrame header frameSize rest
        else if id = idUFID then readUFIDFrame header frameSize rest
        else if id = idCOMM then readCOMMFrame header frameSize rest
        else if id = idPRIV then readPRIVFrame header frameSize rest
        else if id = idAPIC then readAPICFrame header frameSize rest
        else if id = idMCDI then readMCDIFrame header frameSize rest
        else if id = idUSLT then readUSLTFrame header frameSize rest
        else
          match readBuf frameSize rest with
          | none => .eof
          | some (_, s1) => .next (.unsupported header (rest.take frameSize)) s1

/-- ParseEnd is how the Parse frame loop finished: normal end of stream, an
aborting error, or a panic. -/
inductive ParseEnd where
  | done
  | failed (e : ParseErr)
  | panicked
deriving Repr, DecidableEq

/-- parseFrames models the frame loop of Parse: ParseFrame is called until
end of stream; any error aborts the loop at once, returning the frames read
so far. Fuel bounds the recursion; every frame consumes at least the ten
header bytes, so the byte count plus one, as supplied by parse, never runs
out. -/
def parseFrames : Nat → GoStr → List Frame × ParseEnd
  | 0, _ => ([], .panicked)
  | fuel + 1, s =>
    match parseFrame s with
    | .eof => ([], .done)
    | .fail e => ([], .failed e)
    | .panicked => ([], .panicked)
    | .next f rest =>
      let (fs, e) := parseFrames fuel rest
      (f :: fs, e)

/-- ParseResult: the tag assembled by Parse together with how parsing ended.
On a header error the tag is the empty one of NewTag, with a zero header. -/
structure ParseResult where
  header : TagHeader
  frames : List Frame
  outcome : ParseEnd
deriving Repr, DecidableEq

/-- readHeader models Decoder.readHeader: ten bytes, the magic check, the
version check allowing major versions 3 and 4, and the synchsafe size. -/
def readHeader (stream : GoStr) : Except ParseErr (TagHeader × GoStr) :=
  if stream.length = 0 then .error .errEOF
  else if stream.length < 10 then .error .errUnexpectedEOF
  else if stream.take 3 ≠ id3Magic then .error .notATagHeader
  else
    let v0 := stream.getD 3 0
    let v1 := stream.getD 4 0
    if v0 > 4 ∨ v0 < 3 then .error .unsupportedVersion
    else
      .ok (⟨(v0 <<< 8) ||| v1, stream.getD 5 0,
        desynchsafeInt ((stream.drop 6).take 4)⟩, stream.drop 10)

/-- parse models Decoder.Parse up to and including the frame loop: header,
rejection of extended header and unsynchronisation as unimplemented
features, then the loop over the body bytes allowed by the tag size bound.
The upgrade call that Go performs afterwards for versions below 2.4 acts on
the map representation and is modelled separately by the upgrade function;
the claims settled on parse concern streams that do not reach it. -/
def parse (stream : GoStr) : ParseResult :=
  match readHeader stream with
  | .error e => ⟨⟨0, 0, 0⟩, [], .failed e⟩
  | .ok (h, rest) =>
    if h.flags &&& 64 ≠ 0 then ⟨h, [], .failed .unimplementedFeature⟩
    else if h.flags &&& 128 ≠ 0 then ⟨h, [], .failed .unimplementedFeature⟩
    else
      let body := rest.take h.size
      let (fs, e) := parseFrames (body.length + 1) body
      ⟨h, fs, e⟩

/-- check models Check: a three-byte peek, which never consumes input, and
the comparison against the magic; the unchanged stream is returned alongside
to express the reader position. -/
def check (s : GoStr) : Except ParseErr Bool × GoStr :=
  if s.length < 3 then (.error .errUnexpectedEOF, s)
  else (.ok (decide (s.take 3 = id3Magic)), s)

/-- OpenResult: Open either yields a file wrapping the parsed tag, returns
an error, or panics somewhere below. -/
inductive OpenResult where
  | file (hasTag : Bool) (tag : ParseResult)
  | errored (e : ParseErr)
  | panicked
deriving Repr, DecidableEq

/-- openFile models Open on the byte stream of an existing file: the tag is
parsed, a not-a-tag-header error is swallowed, every other error is
returned, and the resulting file reports HasTag as version greater zero. -/
def openFile (stream : GoStr) : OpenResult :=
  let r := parse stream
  match r.outcome with
  | .done => .file (decide (0 < r.header.version)) r
  | .failed e =>
    if e = .notATagHeader then .file (decide (0 < r.header.version)) r
    else .errored e
  | .panicked => .panicked

/-! Save path selection, following the File.Save of the save-era source. -/

/-- frameByteSize models the size method of each frame variant: the ten
header bytes plus the payload. The music-cd-identifier and lyrics variants
carry no size method in the source snapshots that contain Save; they are
modelled like the raw-payload and comment layouts, which no theorem below
depends on. -/
def frameByteSize : Frame → Option Nat
  | .textInformation h text =>
    some (if h.id = idTRDA then 0 else 10 + text.length + 1)
  | .userTextInformation _ d t => some (10 + d.length + t.length + 2)
  | .uniqueFileIdentifier _ owner ident =>
    (utf8ToISO88591 owner).map (fun iso => 10 + ident.length + iso.length + 1)
  | .urlLink _ url => (utf8ToISO88591 url).map (fun iso => 10 + iso.length)
  | .userDefinedURLLink _ d url =>
    (utf8ToISO88591 url).map (fun iso => 10 + d.length + iso.length + 2)
  | .comment _ _ d t => some (10 + d.length + t.length + 5)
  | .privateFrame _ owner data => some (10 + owner.length + data.length + 1)
  | .picture _ mime _ d data =>
    (utf8ToISO88591 mime).map
      (fun iso => 10 + 1 + iso.length + 1 + 1 + d.length + 1 + data.length)
  | .musicCDIdentifier _ toc => some (10 + toc.length)
  | .unsynchronisedLyrics _ _ d lyr => some (10 + d.length + lyr.length + 5)
  | .unsupported _ data => some (10 + data.length)

/-- framesMapSize models FramesMap.size: the sum of all frame sizes. -/
def framesMapSize (fm : FramesMap) : Option Nat :=
  fm.foldlM
    (fun acc e => (e.2.foldlM (fun a f => (frameByteSize f).map (fun n => a + n)) acc))
    0

/-- FileState carries what Save consults: the version currently recorded for
the file, the recorded tag region size, and the frames map. -/
structure FileState where
  version : Nat
  headerSize : Nat
  frames : FramesMap
deriving Repr, DecidableEq

/-- SavePath: in-place overwrite or full rewrite. -/
inductive SavePath where
  | inplace
  | rewrite
deriving Repr, DecidableEq

/-- savePath models the branch of File.Save: the tagging timestamp frame is
stamped first, the stamped frame sizes are summed, and the in-place path is
taken when HasTag holds, the recorded region size can hold the frames, and the
map is non-empty; otherwise the rewrite path. -/
def savePath (f : FileState) (now : GoTime) : Option SavePath := do
  let fm ← setTextFrameTime f.frames idTDTG now
  let framesSize ← framesMapSize fm
  some (if 0 < f.version ∧ framesSize ≤ f.headerSize ∧ 0 < fm.length
    then SavePath.inplace else SavePath.rewrite)

/-! Concrete inputs used by the theorems below. -/

/-- exStreamBadEncoding: a version 2.4 tag of two frames, a TIT2 text frame
whose payload starts with the invalid encoding byte 9, followed by a
well-formed TALB text frame with ISO-8859-1 text. -/
def exStreamBadEncoding : GoStr :=
  [73, 68, 51, 4, 0, 0, 0, 0, 0, 24] ++
    ([84, 73, 84, 50, 0, 0, 0, 2, 0, 0] ++ [9, 65]) ++
    ([84, 65, 76, 66, 0, 0, 0, 2, 0, 0] ++ [0, 66])

/-- exStreamBadId: a version 2.4 tag of three frames, a well-formed TIT2
frame, a frame whose id contains the byte 1, and a well-formed TALB frame. -/
def exStreamBadId : GoStr :=
  [73, 68, 51, 4, 0, 0, 0, 0, 0, 36] ++
    ([84, 73, 84, 50, 0, 0, 0, 2, 0, 0] ++ [0, 65]) ++
    ([84, 73, 84, 1, 0, 0, 0, 2, 0, 0] ++ [0, 66]) ++
    ([84, 65, 76, 66, 0, 0, 0, 2, 0, 0] ++ [0, 67])

/-- exTagTYER: a version 2.3 tag holding TYER 2009, TDAT 1011, TIME 2301. -/
def exTagTYER : Tag :=
  ⟨⟨0x0300, 0, 0⟩,
    [(idTYER, [.textInformation ⟨idTYER, 0⟩ [50, 48, 48, 57]]),
      (idTDAT, [.textInformation ⟨idTDAT, 0⟩ [49, 48, 49, 49]]),
      (idTIME, [.textInformation ⟨idTIME, 0⟩ [50, 51, 48, 49]])]⟩

/-- exSaveFrames: one TALB text frame of one hundred letters. -/
def exSaveFrames : FramesMap :=
  [(idTALB, [.textInformation ⟨idTALB, 0⟩ (List.replicate 100 65)])]

/-- exSaveFile: a file that already had a tag, with a recorded tag region of
2048 bytes, as in the save-path example of the specification. -/
def exSaveFile : FileState := ⟨0x0300, 2048, exSaveFrames⟩

/-- exSaveNow: the wall-clock instant used for the stamped TDTG frame. -/
def exSaveNow : GoTime := timeDate 2020 5 5 5 5 5

/-- exSaveStamped: exSaveFrames after Save stamps the TDTG frame. -/
def exSaveStamped : FramesMap :=
  exSaveFrames ++ [(idTDTG, [.textInformation ⟨idTDTG, 0⟩ (formatTime exSaveNow)])]

/-! Theorems, one per claim. -/

/-- C1: the claim states that for every x below 2 to the 28 the four bytes of
synchsafeInt x desynchsafe back to x with every byte below 128. The encoder
of the source violates both parts: its fourth mask 0xfe0000 overlaps the
third mask and covers bits 17 to 23 instead of bits 21 to 27, so 131072,
which is 2 to the 17, encodes to bytes that decode to 393216, and 1048576
encodes with a byte of value at least 128. -/
theorem synchsafeInt_encode_mask_bug :
    desynchsafeInt (intToBytes (synchsafeInt 131072)) = 393216 ∧
      131072 < 2 ^ 28 ∧ (393216 : Nat) ≠ 131072 ∧
      (intToBytes (synchsafeInt 1048576)).any (fun b => decide (128 ≤ b)) = true := by
  decide

/-- C2 counterexample: on a tag holding a TIT2 frame with the invalid
encoding byte 9 followed by a well-formed TALB frame, the claim would have
Parse drop only the TIT2 frame, return the TALB frame and finish normally;
the parse does not do that. -/
theorem parse_invalid_encoding_counterexample :
    ¬ ((parse exStreamBadEncoding).outcome = .done ∧
      (parse exStreamBadEncoding).frames =
        [.textInformation ⟨idTALB, 0⟩ [66]]) := by
  decide

/-- C2 amended: an invalid text-encoding byte inside a frame payload is not
dropped-and-skipped; Encoding.toUTF8 panics on it, aborting the whole parse
with no frame of the tag retained, and the following well-formed frame is
never read. -/
theorem parse_invalid_encoding_aborts :
    parse exStreamBadEncoding = ⟨⟨0x0400, 0, 24⟩, [], .panicked⟩ := by
  decide

/-- C3: the claim expects TDRC 2009-11-10T23:01:00 with hour and minute
taken from TIME. The source parses hour and minute from the TDAT string
again, leaving the fetched TIME value unused, so the tag upgrades to
TDRC 2009-11-10T10:11:00; TYER, TDAT and TIME are removed as claimed. -/
theorem upgrade_tdrc_from_tdat_bug :
    upgrade exTagTYER = some ⟨⟨0x0300, 0, 0⟩,
        [(idTDRC, [.textInformation ⟨idTDRC, 0⟩
          [50, 48, 48, 57, 45, 49, 49, 45, 49, 48, 84, 49, 48, 58, 49, 49, 58, 48, 48]])]⟩ ∧
      formatTime (timeDate 2009 11 10 23 1 0) =
        [50, 48, 48, 57, 45, 49, 49, 45, 49, 48, 84, 50, 51, 58, 48, 49, 58, 48, 48] ∧
      ([50, 48, 48, 57, 45, 49, 49, 45, 49, 48, 84, 49, 48, 58, 49, 49, 58, 48, 48] : GoStr) ≠
        [50, 48, 48, 57, 45, 49, 49, 45, 49, 48, 84, 50, 51, 58, 48, 49, 58, 48, 48] := by
  decide

/-- C4: on the UTF-16 payload 65 0, 0 0, 66 0 with two fields requested, the
terminator is found only at the aligned double zero, as claimed, but the
second returned field is the entire payload rather than the bytes after the
terminator, because the prev offset of the source never advances; a payload
whose only zero bytes sit at odd offsets inside code units is correctly not
split at all. -/
theorem splitNullN_utf16_prev_bug :
    splitNullN [65, 0, 0, 0, 66, 0] encUTF16BOM 2 =
        some [[65, 0], [65, 0, 0, 0, 66, 0]] ∧
      ([[65, 0], [65, 0, 0, 0, 66, 0]] : List GoStr) ≠ [[65, 0], [66, 0]] ∧
      splitNullN [65, 0, 66, 0] encUTF16BOM 2 = some [[65, 0, 66, 0]] := by
  decide

/-- C5: a ten-byte frame header whose id is not the all-zero padding marker
and contains a byte outside the digit and capital ranges makes ParseFrame
return the malformed-frame-header error; the Parse loop returns at once on
any such error, reading nothing further; on the concrete three-frame stream
whose second frame id holds the byte 1, parsing yields exactly the first
frame and the error. -/
theorem parse_malformed_id_aborts :
    (∀ s : GoStr, 10 ≤ s.length → s.take 4 ≠ [0, 0, 0, 0] →
        (s.take 4).all validIdByte = false →
        parseFrame s = .fail .notAFrameHeader) ∧
      (∀ (fuel : Nat) (s : GoStr) (e : ParseErr), parseFrame s = .fail e →
        parseFrames (fuel + 1) s = ([], .failed e)) ∧
      parse exStreamBadId = ⟨⟨0x0400, 0, 36⟩,
        [.textInformation ⟨idTIT2, 0⟩ [65]], .failed .notAFrameHeader⟩ := by
  refine ⟨?_, ?_, by decide⟩
  · intro s hlen hz hv
    have h0 : ¬ s.length = 0 := by omega
    have h1 : ¬ s.length < 10 := by omega
    simp [parseFrame, readFull, h0, h1, List.take_take, hz, hv]
  · intro fuel s e h
    simp [parseFrames, h]

/-- C5 witness: the general parts applied to a concrete malformed header. -/
theorem parse_malformed_id_aborts_witness :
    parseFrame ([84, 73, 84, 1] ++ [0, 0, 0, 2] ++ [0, 0] ++ [0, 66]) =
        .fail .notAFrameHeader ∧
      parseFrames 3 ([84, 73, 84, 1] ++ [0, 0, 0, 2] ++ [0, 0] ++ [0, 66]) =
        ([], .failed .notAFrameHeader) := by
  have h := parse_malformed_id_aborts
  exact ⟨h.1 _ (by decide) (by decide) (by decide),
    h.2.1 2 _ _ (h.1 _ (by decide) (by decide) (by decide))⟩

/-- C6: Save stamps the TDTG tagging-time frame and then takes the in-place
path exactly when the file already had a tag (recorded version positive),
the recorded tag region size can hold the newly encoded frame bytes, and at
least one frame exists; otherwise the rewrite path. -/
theorem savePath_inplace_iff :
    ∀ (f : FileState) (now : GoTime) (fm : FramesMap) (n : Nat),
      setTextFrameTime f.frames idTDTG now = some fm →
      framesMapSize fm = some n →
      (savePath f now = some SavePath.inplace ↔
        (0 < f.version ∧ n ≤ f.headerSize ∧ 0 < fm.length)) := by
  intro f now fm n h1 h2
  by_cases hc : (0 < f.version ∧ n ≤ f.headerSize ∧ 0 < fm.length) <;>
    simp [savePath, h1, h2, hc]

/-- C6 witness: the specification example, a 2048-byte recorded region and a
stamped frame set of 141 bytes, takes the in-place path. -/
theorem savePath_inplace_iff_witness :
    savePath exSaveFile exSaveNow = some SavePath.inplace :=
  (savePath_inplace_iff exSaveFile exSaveNow exSaveStamped 141
    (by decide) (by decide)).mpr (by decide)

/-- C7 counterexample: the stream 65 66 67 has three bytes that are not the
magic, yet Open reports a failure, the unexpected-end error of the ten-byte
header read, instead of a file with an empty tag. -/
theorem open_nonmagic_counterexample :
    openFile [65, 66, 67] = .errored .errUnexpectedEOF ∧
      ([65, 66, 67] : GoStr).take 3 ≠ id3Magic := by
  decide

/-- C7 amended: for every stream of at least ten bytes, enough for the header
read, whose first three bytes are not the magic, Open succeeds and returns a
file holding the empty tag, whose HasTag is false; a shorter stream fails
with the read error instead. -/
theorem open_nonmagic_no_tag :
    ∀ s : GoStr, 10 ≤ s.length → s.take 3 ≠ id3Magic →
      openFile s = .file false ⟨⟨0, 0, 0⟩, [], .failed .notATagHeader⟩ := by
  intro s hlen hmagic
  have h0 : ¬ s.length = 0 := by omega
  have h1 : ¬ s.length < 10 := by omega
  simp [openFile, parse, readHeader, h0, h1, hmagic]

/-- C7 witness: a ten-byte stream of letters. -/
theorem open_nonmagic_no_tag_witness :
    openFile [65, 66, 67, 68, 69, 70, 71, 72, 73, 74] =
      .file false ⟨⟨0, 0, 0⟩, [], .failed .notATagHeader⟩ :=
  open_nonmagic_no_tag [65, 66, 67, 68, 69, 70, 71, 72, 73, 74]
    (by decide) (by decide)

set_option maxRecDepth 100000 in
/-- C8: every byte value, taken as a one-byte Latin-1 string, converts to
UTF-8 and back to the same byte. -/
theorem iso88591_utf8_roundtrip :
    ∀ b : Fin 256, utf8ToISO88591 (iso88591ToUTF8 [b.val]) = some [b.val] := by
  decide

/-- C9: Check peeks and never consumes, so the stream it leaves behind is the
input stream, a subsequent parse sees the original position, and the result
reports whether the first three bytes are the magic. -/
theorem check_consumes_nothing :
    ∀ s : GoStr, (check s).2 = s ∧ parse (check s).2 = parse s ∧
      (check s).1 = (if s.length < 3 then .error .errUnexpectedEOF
        else .ok (decide (s.take 3 = id3Magic))) := by
  intro s
  by_cases h : s.length < 3 <;> simp [check, h]

/-- C10: utf16ToUTF8 needs at least two input bytes to avoid an out-of-range
index: the empty input fails on index 0, and a one-byte input fails on
index 1, either in the byte-order-mark comparison or in the code-unit loop. -/
theorem utf16ToUTF8_short_oob :
    ∀ input : GoStr, input.length < 2 → utf16ToUTF8 input = none := by
  intro input h
  match input with
  | [] => rfl
  | [b] =>
    simp only [utf16ToUTF8]
    by_cases h1 : b = 0xFF
    · simp [h1]
    · by_cases h2 : b = 0xFE
      · simp [h1, h2]
      · simp [h1, h2, utf16Collect]
  | _ :: _ :: _ => simp at h; omega

/-- C10 witness: the one-byte input 65. -/
theorem utf16ToUTF8_short_oob_witness : utf16ToUTF8 [65] = none :=
  utf16ToUTF8_short_oob [65] (by decide)

end ID3
